import Mathlib

/-!
Verification development for the photobackup application.

The development shallowly embeds the two cores of the app:

* the Local Discovery Engine (`usePhotoScanning`: `scanDirectoryRecursively`,
  `scanPhotosWithMediaStore`, `hasDirectoriesChanged`, `loadDevicePhotos`,
  `addDebugInfo`), and
* the Remote Reconciliation & Upload Orchestrator (`useNextcloudBackup`:
  `getNextcloudFiles`, `getMimeType`, `readFileFlexible`,
  `uploadPhotoToNextcloud`, `performBackup`, `addUploadDebugInfo`).

Platform capabilities (Capacitor `Filesystem`, `Media`, `CapacitorHttp`) are
modelled as explicit environments: `readdir`/`stat` become functions returning
`Option` values (`none` models a thrown exception), HTTP calls become
environment lookups returning an optional status code, and every issued
listing / stat / network call is recorded in an explicit request trace.

Mutable React state is passed explicitly.  Two flags deserve care:

* `scanningRef` in `usePhotoScanning` is a `useRef`, i.e. a live mutable cell.
  The scan reads it before each directory entry; an external cancellation
  makes all subsequent reads return `false`.  We model the sequence of reads
  with a `budget : Nat`: the first `budget` reads of the flag return `true`,
  all later reads return `false` (a run that is never cancelled corresponds to
  a budget larger than the total number of reads the run performs).
* `isBackingUp` in `useNextcloudBackup` is a `useState` value.  A JavaScript
  closure captures the state value of the render that created it, so inside
  one invocation of `performBackup` the identifier `isBackingUp` is a
  constant: the value at the moment the callback was created.
  `setIsBackingUp(true)` updates the store for future renders but not the
  captured binding.  We therefore model the captured value as an explicit
  parameter `isBackingUp0` of `performBackup`.

Clock readings (`Date.now()`, `toLocaleTimeString()`) are abstracted: each
call of a modelled operation takes the current time / timestamp as a
parameter, and all readings within one invocation coincide.  JavaScript
string error renderings (interpolating a thrown value) are abstracted to the
fixed text "Error".
-/

namespace PhotoBackup

/-! ## JavaScript string and array primitives used by the source -/

/-- JS `array.slice(-n)`: the last `min n l.length` elements of `l`. -/
def jsSliceNeg (n : Nat) (l : List String) : List String :=
  l.drop (l.length - n)

/-- Split a character list at every occurrence of `sep` (the JS
`String.prototype.split` with a one-character separator; all splits in the
source use `"/"` or `"."`). -/
def splitChar (sep : Char) : List Char → List (List Char)
  | [] => [[]]
  | c :: rest =>
    match splitChar sep rest with
    | [] => [[c]]
    | h :: t => if c = sep then [] :: h :: t else (c :: h) :: t

/-- JS `s.split(sep).pop()`: the last field of the split (JS `split` always
returns a nonempty array, so `pop` is defined). -/
def jsSplitPop (sep : Char) (s : String) : String :=
  String.mk ((splitChar sep s.data).getLastD [])

/-- Does `pat` occur as a contiguous sublist of the list? -/
def infixCheck (pat : List Char) : List Char → Bool
  | [] => List.isPrefixOf pat []
  | c :: rest => List.isPrefixOf pat (c :: rest) || infixCheck pat rest

/-- JS `s.includes(pat)` (substring containment; the empty pattern is always
contained). -/
def containsSubstr (s pat : String) : Bool :=
  if pat = "" then true else infixCheck pat.data s.data

/-- ASCII lower-casing of one character (all case conversions in the source
act on ASCII path characters). -/
def lowerChar (c : Char) : Char :=
  if 'A' ≤ c ∧ c ≤ 'Z' then Char.ofNat (c.toNat + 32) else c

/-- JS `s.toLowerCase()` (ASCII fragment). -/
def toLowerStr (s : String) : String :=
  String.mk (s.data.map lowerChar)

/-- JS `s.startsWith(pre)`. -/
def startsWithStr (s pre : String) : Bool :=
  List.isPrefixOf pre.data s.data

/-- JS `s.endsWith(suffix)`. -/
def endsWithStr (s suffix : String) : Bool :=
  List.isSuffixOf suffix.data s.data

/-- JS `s.substring(n)` (drop the first `n` characters). -/
def strDrop (s : String) (n : Nat) : String :=
  String.mk (s.data.drop n)

/-- Drop the final character (the effect of `replace(/\/$/, "")` once the
trailing slash is known to be present). -/
def strDropLast (s : String) : String :=
  String.mk s.data.dropLast

/-- JS `array.join(sep)`. -/
def joinWith (sep : String) : List String → String
  | [] => ""
  | h :: t => t.foldl (fun acc x => acc ++ sep ++ x) h

/-- JS `s.replace(/^\/+/, "")`: strip all leading slashes. -/
def dropLeadingSlashes (s : String) : String :=
  String.mk (s.data.dropWhile (fun c => c = '/'))

/-- JS `s.replace(/^\/+/, "").replace(/\/+$/, "")`: strip leading and
trailing slashes (the `cleanPath` computation of `loadDevicePhotos`). -/
def stripSlashes (s : String) : String :=
  String.mk (((s.data.dropWhile (fun c => c = '/')).reverse.dropWhile
    (fun c => c = '/')).reverse)

/-- Value of an ASCII hex digit. -/
def hexVal (c : Char) : Option Nat :=
  if '0' ≤ c ∧ c ≤ '9' then some (c.toNat - 48)
  else if 'a' ≤ c ∧ c ≤ 'f' then some (c.toNat - 87)
  else if 'A' ≤ c ∧ c ≤ 'F' then some (c.toNat - 55)
  else none

/-- Percent-decoding on character lists: a well-formed ASCII escape `%hh`
(value < 128) is replaced by the character it denotes; any other character is
passed through. -/
def percentDecodeList : List Char → List Char
  | [] => []
  | c :: rest =>
    if c = '%' then
      match rest with
      | h1 :: h2 :: rest2 =>
        match hexVal h1, hexVal h2 with
        | some a, some b =>
          if 16 * a + b < 128 then
            Char.ofNat (16 * a + b) :: percentDecodeList rest2
          else c :: percentDecodeList (h1 :: h2 :: rest2)
        | _, _ => c :: percentDecodeList (h1 :: h2 :: rest2)
      | other => c :: percentDecodeList other
    else c :: percentDecodeList rest

/-- Model of the JS builtin `decodeURIComponent`, faithful on strings whose
escapes are well-formed single-byte (ASCII) sequences — which covers all
inputs used in this development.  (Multi-byte UTF-8 escapes and the
`URIError` on malformed input are outside the model.) -/
def decodeURIComponent (s : String) : String :=
  String.mk (percentDecodeList s.data)

/-- A string with no `%` character; on such strings `decodeURIComponent` is
the identity. -/
def percentFree (s : String) : Prop := '%' ∉ s.data

instance (s : String) : Decidable (percentFree s) := by
  unfold percentFree; infer_instance

/-! ## Bounded diagnostic logs

`usePhotoScanning.addDebugInfo` (discovery log) and
`useNextcloudBackup.addUploadDebugInfo` (upload log).  Both prepend a
timestamp to the message and append it to `prev.slice(-N)` (N = 20 resp. 30).
The timestamp (`new Date().toLocaleTimeString()`) is passed as the `ts`
parameter. -/

/-- Discovery-log append: `setDebugInfo(prev => [...prev.slice(-20), msg])`. -/
def addDebugInfo (ts message : String) (prev : List String) : List String :=
  jsSliceNeg 20 prev ++ [ts ++ ": " ++ message]

/-- Upload-log append: `setUploadDebugInfo(prev => [...prev.slice(-30), msg])`. -/
def addUploadDebugInfo (ts message : String) (prev : List String) : List String :=
  jsSliceNeg 30 prev ++ [ts ++ ": " ++ message]

/-! ## Remote orchestrator: pure helpers (`useNextcloudBackup`) -/

/-- Nextcloud credentials. -/
structure Credentials where
  serverUrl : String
  username : String
  password : String
deriving DecidableEq, Repr

/-- A network request issued by the orchestrator: the connectivity `GET`
against the user's WebDAV root, the `PROPFIND` listing of a directory, or a
`PUT` upload to a full URL. -/
inductive HttpReq where
  | connGet
  | propfind (path : String)
  | put (url : String)
deriving DecidableEq, Repr

/-- Is this request an upload? -/
def isPutReq : HttpReq → Bool
  | .put _ => true
  | _ => false

/-- Environment of the orchestrator: responses of the platform HTTP and
filesystem capabilities.  `none` models a thrown exception; `readAbs` is
`Filesystem.readFile` with an absolute path, `readExt` with a path relative
to `Directory.ExternalStorage`; read results are the base64 data strings. -/
structure BackupEnv where
  connStatus : Option Nat
  listRaw : Option (List String)
  readAbs : String → Option String
  readExt : String → Option String
  putStatus : String → Option Nat

/-- `getNextcloudFiles`: parse the `PROPFIND` body.  The environment supplies
`listRaw`, the ordered list of successful captures `match[1]` of the href
regex (each capture is a nonempty run of characters other than `<` and `/`,
still percent-encoded); `none` models a thrown request.  The loop keeps a
capture `r` when `match[1]` is truthy (`r ≠ ""`) and `r` differs from
`path.split("/").pop()`, and pushes `decodeURIComponent r`. -/
def getNextcloudFiles (credentials : Option Credentials) (path : String)
    (listRaw : Option (List String)) : List String :=
  match credentials with
  | none => []
  | some _ =>
    match listRaw with
    | none => []
    | some raws =>
      (raws.filter (fun r => (r != "") && (r != jsSplitPop '/' path))).map
        decodeURIComponent

/-- `getMimeType`: extension (after the last dot of the lowercased name) to
MIME type. -/
def getMimeType (fileName : String) : String :=
  match jsSplitPop '.' (toLowerStr fileName) with
  | "jpg" => "image/jpeg"
  | "jpeg" => "image/jpeg"
  | "png" => "image/png"
  | "gif" => "image/gif"
  | "webp" => "image/webp"
  | "heic" => "image/heic"
  | "heif" => "image/heic"
  | "bmp" => "image/bmp"
  | "tif" => "image/tiff"
  | "tiff" => "image/tiff"
  | "dng" => "image/x-adobe-dng"
  | _ => "application/octet-stream"

/-- The per-photo file name in `performBackup`:
`photoPath.split("/").pop() || "unknown.jpg"`. -/
def fileNameOf (photoPath : String) : String :=
  let p := jsSplitPop '/' photoPath
  if p = "" then "unknown.jpg" else p

/-- The normalized target directory of `performBackup`: ensure a leading
slash, drop one trailing slash, fall back to "/" when empty. -/
def normalizedTargetDir (targetDirectory : String) : String :=
  let raw := if targetDirectory = "" then "/" else targetDirectory
  let withLeading := if startsWithStr raw "/" then raw else "/" ++ raw
  let r := if endsWithStr withLeading "/" then strDropLast withLeading
           else withLeading
  if r = "" then "/" else r

/-- The upload URL built by `uploadPhotoToNextcloud`. -/
def putUrl (c : Credentials) (targetDir fileName : String) : String :=
  c.serverUrl ++ "/remote.php/dav/files/" ++ c.username ++ targetDir ++ "/"
    ++ fileName

/-- `Math.round(((u + s + 1) / total) * 100)` of the progress message, in
exact integer arithmetic (round half up; exact for the magnitudes involved). -/
def jsRoundPct (k n : Nat) : Nat :=
  if n = 0 then 0 else (200 * k + n) / (2 * n)

/-- `readFileFlexible`: try the absolute path, then (for paths under
`/storage/emulated/0/` or `/sdcard/`) the ExternalStorage-relative path, then
the path with leading slashes stripped.  Returns the base64 data (`none` when
every attempt failed and the final error is rethrown) together with the raw
debug messages the cascade appends. -/
def readFileFlexible (env : BackupEnv) (photoPath : String) :
    Option String × List String :=
  let m1 := "📄 Reading file (absolute): " ++ photoPath
  match env.readAbs photoPath with
  | some d => (some d, [m1])
  | none =>
    let m2 := "⚠️ Absolute read failed, trying ExternalStorage fallback: "
      ++ photoPath
    let tryRoot : String → Option (Option String × List String) :=
      fun root =>
        if startsWithStr photoPath root then
          let rel := strDrop photoPath root.length
          let mr := "📄 Reading file (ExternalStorage): " ++ rel
          match env.readExt rel with
          | some d => some (some d, [mr])
          | none =>
            some (none, [mr, "❌ ExternalStorage read failed for " ++ rel])
        else none
    let afterRoots : Option String × List String :=
      match tryRoot "/storage/emulated/0/" with
      | some (some d, ms) => (some d, ms)
      | some (none, ms) =>
        (match tryRoot "/sdcard/" with
         | some (some d2, ms2) => (some d2, ms ++ ms2)
         | some (none, ms2) => (none, ms ++ ms2)
         | none => (none, ms))
      | none =>
        (match tryRoot "/sdcard/" with
         | some (some d2, ms2) => (some d2, ms2)
         | some (none, ms2) => (none, ms2)
         | none => (none, []))
    match afterRoots with
    | (some d, ms) => (some d, m1 :: m2 :: ms)
    | (none, ms) =>
      let trimmed := dropLeadingSlashes photoPath
      let mt := "📄 Reading file (trimmed path): " ++ trimmed
      match env.readExt trimmed with
      | some d => (some d, m1 :: m2 :: ms ++ [mt])
      | none =>
        (none, m1 :: m2 :: ms
          ++ [mt, "❌ All read attempts failed for " ++ photoPath])

/-- `uploadPhotoToNextcloud`: read the file, `PUT` it to
`targetDir/fileName`, succeed on any 2xx status.  Returns the success flag,
the raw debug messages, and the issued requests.  A read failure (the
rethrown exception of `readFileFlexible`) or a `PUT` exception is caught and
logged; no request is issued when the read fails. -/
def uploadPhotoToNextcloud (env : BackupEnv) (credentials : Option Credentials)
    (photoPath fileName targetDir : String) :
    Bool × List String × List HttpReq :=
  match credentials with
  | none => (false, [], [])
  | some c =>
    let contentType := getMimeType fileName
    let rd := readFileFlexible env photoPath
    match rd.1 with
    | none =>
      (false, rd.2 ++ ["❌ Exception uploading " ++ fileName ++ ": Error"], [])
    | some _data =>
      let url := putUrl c targetDir fileName
      let ms2 := rd.2 ++ ["🌐 Uploading to Nextcloud: " ++ fileName ++ " ("
        ++ contentType ++ ")"]
      match env.putStatus url with
      | none =>
        (false, ms2 ++ ["❌ Exception uploading " ++ fileName ++ ": Error"],
          [HttpReq.put url])
      | some s =>
        let ok := decide (200 ≤ s) && decide (s < 300)
        (ok,
          ms2 ++ [if ok then
              "✅ Server accepted " ++ fileName ++ " (status " ++ toString s
                ++ ")"
            else
              "❌ Server rejected " ++ fileName ++ " (status " ++ toString s
                ++ ")"],
          [HttpReq.put url])

/-- State threaded through `performBackup`: counters, the status-message
history (each `setBackupStatus` call, in order), the full sequence of
debug messages appended by `addUploadDebugInfo` (`events`, unbounded), the
resulting bounded log state (`log`), and the issued requests. -/
structure LoopSt where
  uploaded : Nat
  skipped : Nat
  statuses : List String
  events : List String
  log : List String
  requests : List HttpReq
deriving Repr

/-- Apply `addUploadDebugInfo` to each message in order, recording each
timestamped entry in `events` as well. -/
def logMsgs (ts : String) (st : LoopSt) (msgs : List String) : LoopSt :=
  msgs.foldl
    (fun s m =>
      { s with
        events := s.events ++ [ts ++ ": " ++ m]
        log := addUploadDebugInfo ts m s.log })
    st

/-- The body of one iteration of the upload loop of `performBackup`
(lines 276–314): derive the file name, skip when it is in the remote
inventory, otherwise attempt the upload and record the outcome. -/
def uploadStep (env : BackupEnv) (c : Credentials) (ntd : String)
    (existingFiles : List String) (totalPhotos : Nat) (ts : String)
    (photoPath : String) (st : LoopSt) : LoopSt :=
  let fileName := fileNameOf photoPath
  let st1 := logMsgs ts st ["📸 Processing photo: " ++ fileName]
  if existingFiles.contains fileName then
    let st2 := { st1 with
      skipped := st1.skipped + 1
      statuses := st1.statuses
        ++ ["Skipping " ++ fileName ++ " (already exists)"] }
    logMsgs ts st2 ["⏭️ Skipped " ++ fileName ++ " (already exists)"]
  else
    let k := st1.uploaded + st1.skipped + 1
    let st2 := { st1 with
      statuses := st1.statuses ++ ["Uploading " ++ fileName ++ "... ("
        ++ toString k ++ "/" ++ toString totalPhotos ++ ")"] }
    let st3 := logMsgs ts st2 ["⬆️ Uploading " ++ fileName ++ " ("
      ++ toString (jsRoundPct k totalPhotos) ++ "%)"]
    let up := uploadPhotoToNextcloud env (some c) photoPath fileName ntd
    let st4 := logMsgs ts
      { st3 with requests := st3.requests ++ up.2.2 } up.2.1
    if up.1 then
      let st5 := { st4 with
        uploaded := st4.uploaded + 1
        statuses := st4.statuses ++ ["Uploaded " ++ fileName ++ " ("
          ++ toString (st4.uploaded + 1) ++ " completed)"] }
      logMsgs ts st5 ["✅ " ++ fileName ++ " uploaded successfully (0ms)"]
    else
      let st5 := { st4 with
        statuses := st4.statuses ++ ["Failed to upload " ++ fileName] }
      logMsgs ts st5 ["❌ Failed to upload " ++ fileName ++ " after 0ms"]

/-- The sequential upload loop of `performBackup` (lines 273–315).
`isBackingUp0` is the captured value of the `isBackingUp` state in the
closure that is running (see the module comment): the loop breaks when it is
`false`. -/
def uploadLoop (env : BackupEnv) (c : Credentials) (ntd : String)
    (existingFiles : List String) (totalPhotos : Nat) (isBackingUp0 : Bool)
    (ts : String) : List String → LoopSt → LoopSt
  | [], st => st
  | photoPath :: rest, st =>
    if isBackingUp0 = false then st
    else
      uploadLoop env c ntd existingFiles totalPhotos isBackingUp0 ts rest
        (uploadStep env c ntd existingFiles totalPhotos ts photoPath st)

/-- Result of one `performBackup` run. -/
structure BackupResult where
  statuses : List String
  events : List String
  log : List String
  requests : List HttpReq
  summary : Option (Nat × Nat × Nat)
deriving Repr

/-- `performBackup` (lines 204–328).  `log0` is the upload log state before
the run (the run clears it unless it fast-fails on missing credentials);
`isBackingUp0` is the captured `isBackingUp` value of the running closure. -/
def performBackup (env : BackupEnv) (credentials : Option Credentials)
    (targetDirectory : String) (devicePhotos : List String)
    (isBackingUp0 : Bool) (log0 : List String) (ts : String) : BackupResult :=
  match credentials with
  | none =>
    { statuses := ["Please configure Nextcloud credentials first"]
      events := [ts ++ ": " ++ "❌ No credentials configured"]
      log := addUploadDebugInfo ts "❌ No credentials configured" log0
      requests := []
      summary := none }
  | some c =>
    let st0 : LoopSt :=
      { uploaded := 0, skipped := 0, statuses := ["Starting backup..."],
        events := [], log := [], requests := [] }
    let st1 := logMsgs ts st0
      ["🚀 Starting backup process", "🔗 Testing Nextcloud connection..."]
    let st2 := { st1 with requests := st1.requests ++ [HttpReq.connGet] }
    if (env.connStatus == some 207) = false then
      let st3 := { st2 with statuses := st2.statuses
        ++ ["Failed to connect to Nextcloud. Please check credentials."] }
      let st4 := logMsgs ts st3
        ["❌ Connection failed - check credentials and server URL"]
      ⟨st4.statuses, st4.events, st4.log, st4.requests, none⟩
    else
      let st3 := logMsgs ts st2 ["✅ Connection successful",
        "📂 Checking existing files in " ++ targetDirectory]
      let st4 := { st3 with
        requests := st3.requests ++ [HttpReq.propfind targetDirectory] }
      let existingFiles := getNextcloudFiles (some c) targetDirectory
        env.listRaw
      let st5 := { st4 with statuses := st4.statuses
        ++ ["Found " ++ toString existingFiles.length
            ++ " existing files in Nextcloud"] }
      let st6 := logMsgs ts st5
        ["📋 Found " ++ toString existingFiles.length ++ " existing files: "
          ++ joinWith ", " (existingFiles.take 5)
          ++ (if existingFiles.length > 5 then "..." else "")]
      if devicePhotos.length = 0 then
        let st7 := logMsgs ts st6
          ["❌ No photos found to backup. Please scan for photos first."]
        let st8 := { st7 with statuses := st7.statuses
          ++ ["No photos found to backup. Please scan for photos first."] }
        ⟨st8.statuses, st8.events, st8.log, st8.requests, none⟩
      else
        let totalPhotos := devicePhotos.length
        let st7 := logMsgs ts st6 ["📱 Using " ++ toString totalPhotos
          ++ " photos found by MediaStore API"]
        let ntd := normalizedTargetDir targetDirectory
        let r := uploadLoop env c ntd existingFiles totalPhotos isBackingUp0
          ts devicePhotos st7
        let finalMessage := "Backup completed! Uploaded: "
          ++ toString r.uploaded ++ ", Skipped: " ++ toString r.skipped
          ++ ", Total: " ++ toString totalPhotos
        let r2 := { r with statuses := r.statuses ++ [finalMessage] }
        let r3 := logMsgs ts r2 ["🎉 " ++ finalMessage]
        ⟨r3.statuses, r3.events, r3.log, r3.requests,
          some (r3.uploaded, r3.skipped, totalPhotos)⟩

/-- A local file is pending when its derived file name is absent from the
remote inventory (the negation of the loop's skip condition). -/
def pendingFile (existingFiles : List String) (photoPath : String) : Bool :=
  !(existingFiles.contains (fileNameOf photoPath))

/-- The success flag `uploadPhotoToNextcloud` returns for a photo, as used
by the loop. -/
def uploadOK (env : BackupEnv) (c : Credentials) (ntd photoPath : String) :
    Bool :=
  (uploadPhotoToNextcloud env (some c) photoPath (fileNameOf photoPath)
    ntd).1

/-- Number of source files that are pending and whose upload succeeds. -/
def countUploads (env : BackupEnv) (c : Credentials) (ntd : String)
    (existingFiles devicePhotos : List String) : Nat :=
  (devicePhotos.filter (fun p =>
    pendingFile existingFiles p && uploadOK env c ntd p)).length

/-- Number of source files whose derived name is in the remote inventory. -/
def countSkips (existingFiles devicePhotos : List String) : Nat :=
  (devicePhotos.filter (fun p =>
    existingFiles.contains (fileNameOf p))).length

/-- The timestamped log entry recording a failed upload of a photo. -/
def failEvent (ts photoPath : String) : String :=
  ts ++ ": " ++ ("❌ Failed to upload " ++ fileNameOf photoPath
    ++ " after 0ms")

/-! ## Local discovery engine (`usePhotoScanning`, MediaStore variant)

The `Filesystem` capability becomes an explicit environment: `readdir`
returns the entries of a path (`none` models a thrown error) and `statf`
models `Filesystem.stat`.  All listing/stat/catalog calls are recorded in a
trace.  The `directory: Directory.ExternalStorage` argument of the source is
absorbed into the environment.  The live `scanningRef` flag is modelled by a
read budget (see the module comment). -/

/-- One entry of a `readdir` result: `{ name, type }`, where `type` is
`"directory"`, `"file"`, another string, or absent (unreliable on Android). -/
structure FileInfo where
  name : String
  ftype : Option String
deriving DecidableEq, Repr

/-- A `Filesystem.stat` result (only the fields the source consults). -/
structure StatInfo where
  stype : String
  size : Nat
deriving DecidableEq, Repr

/-- A filesystem/catalog I/O operation performed by the scanner. -/
inductive ScanReq where
  | readdir (path : String)
  | stat (path : String)
  | media
deriving DecidableEq, Repr

/-- The path an I/O operation touches (`media` touches no path). -/
def reqPath : ScanReq → String
  | .readdir p => p
  | .stat p => p
  | .media => ""

/-- Number of path separators in a string: the nesting level of a path
relative to the paths it is built from (entry names are separator-free). -/
def slashes (s : String) : Nat := s.data.count '/'

/-- A photo entry as returned by `Media.getPhotos` (the `path` field may be
absent). -/
structure MediaPhoto where
  path : Option String
deriving DecidableEq, Repr

/-- Environment of the discovery engine: platform, media permissions
(`none` = `requestPermissions` threw), the MediaStore content (`none` =
`getPhotos` threw), and the filesystem. -/
structure ScanEnv where
  android : Bool
  perm : Option String
  photosRes : Option (List MediaPhoto)
  readdir : String → Option (List FileInfo)
  statf : String → Option StatInfo

/-- A filesystem environment whose entry names contain no path separator
(true of real directory listings). -/
def namesSlashFree (env : ScanEnv) : Prop :=
  ∀ p l, env.readdir p = some l → ∀ f ∈ l, slashes f.name = 0

/-- Accumulated scan state: photos found so far, remaining flag-read budget,
and the I/O trace. -/
structure ScanOut where
  photos : List String
  budget : Nat
  trace : List ScanReq
deriving Repr

/-- The photo-extension test of the recursive walk:
`/\.(jpe?g|png|gif|heic|heif|webp|bmp|tiff?|raw|cr2|nef|arw|dng)$/i` applied
to the lowercased entry name. -/
def isPhotoExt (fileName : String) : Bool :=
  ["jpg", "jpeg", "png", "gif", "heic", "heif", "webp", "bmp", "tif",
   "tiff", "raw", "cr2", "nef", "arw", "dng"].any
    (fun e => endsWithStr fileName ("." ++ e))

/-- The system-reserved-directory test used when `stat` fails. -/
def isInSystemDir (fullPath : String) : Bool :=
  containsSubstr (toLowerStr fullPath) "/android_secure/"
    || containsSubstr (toLowerStr fullPath) "/system/"
    || containsSubstr (toLowerStr fullPath) "/.android_secure/"

/-- The entry loop of `scanDirectoryRecursively` (lines 401–509).  `recurse`
is the recursive descent (one depth level deeper).  Before each entry the
scanning flag is read: with budget `0` the read returns `false` and the
partial photo list is returned at once; otherwise the read consumes one unit
of budget. -/
def scanLoop (recurse : String → Nat → ScanOut) (env : ScanEnv)
    (basePath : String) : List FileInfo → ScanOut → ScanOut
  | [], st => st
  | f :: rest, st =>
    if st.budget = 0 then st
    else
      let b1 := st.budget - 1
      let fullPath := if basePath ≠ "" then basePath ++ "/" ++ f.name
                      else f.name
      let fileName := toLowerStr f.name
      if isPhotoExt fileName then
        match env.statf fullPath with
        | some info =>
          scanLoop recurse env basePath rest
            ⟨if info.stype = "file" then st.photos ++ [fullPath]
              else st.photos, b1, st.trace ++ [.stat fullPath]⟩
        | none =>
          scanLoop recurse env basePath rest
            ⟨if isInSystemDir fullPath then st.photos
              else st.photos ++ [fullPath], b1,
              st.trace ++ [.stat fullPath]⟩
      else
        match f.ftype with
        | some "directory" =>
          let sub := recurse fullPath b1
          scanLoop recurse env basePath rest
            ⟨st.photos ++ sub.photos, sub.budget, st.trace ++ sub.trace⟩
        | some "file" =>
          scanLoop recurse env basePath rest ⟨st.photos, b1, st.trace⟩
        | _ =>
          match env.readdir fullPath with
          | some _ =>
            let sub := recurse fullPath b1
            scanLoop recurse env basePath rest
              ⟨st.photos ++ sub.photos, sub.budget,
                st.trace ++ [.readdir fullPath] ++ sub.trace⟩
          | none =>
            scanLoop recurse env basePath rest
              ⟨st.photos, b1, st.trace ++ [.readdir fullPath]⟩

/-- The body of `scanDirectoryRecursively` on the remaining depth
`fuel = maxDepth - currentDepth` (the guard `currentDepth >= maxDepth` is
exactly `fuel = 0`, and the recursive call decrements `fuel`). -/
def scanAux (env : ScanEnv) (fuel : Nat) (basePath : String) (budget : Nat) :
    ScanOut :=
  match fuel with
  | 0 => ⟨[], budget, []⟩
  | fuel' + 1 =>
    match env.readdir basePath with
    | none => ⟨[], budget, [.readdir basePath]⟩
    | some files =>
      let r := scanLoop (fun p b => scanAux env fuel' p b) env basePath files
        ⟨[], budget, [.readdir basePath]⟩
      ⟨r.photos, r.budget, r.trace⟩

/-- `scanDirectoryRecursively(basePath, directory, maxDepth, currentDepth)`
(lines 367–518). -/
def scanDirectoryRecursively (env : ScanEnv) (basePath : String)
    (maxDepth currentDepth : Nat) (budget : Nat) : ScanOut :=
  if maxDepth ≤ currentDepth then ⟨[], budget, []⟩
  else scanAux env (maxDepth - currentDepth) basePath budget

/-- The memoised scan result (lines 238–242). -/
structure ScanCache where
  directories : List String
  photos : List String
  lastScanTime : Nat
deriving DecidableEq, Repr

/-- `hasDirectoriesChanged` (lines 520–530): no cache, different length, or
any positional difference. -/
def hasDirectoriesChanged (cache : Option ScanCache)
    (newDirectories : List String) : Bool :=
  match cache with
  | none => true
  | some c =>
    if c.directories.length ≠ newDirectories.length then true
    else !((c.directories.zip newDirectories).all fun p => p.1 == p.2)

/-- `[...new Set(l)]`: deduplication keeping first occurrences in insertion
order. -/
def jsSetDedup (l : List String) : List String :=
  l.foldl (fun acc x => if x ∈ acc then acc else acc ++ [x]) []

/-- `scanPhotosWithMediaStore` (lines 259–365): on Android, request media
permissions, fetch the MediaStore photo list, filter by the configured
directories (substring on the lowercased path), deduplicate and drop empty
paths.  Returns the photo paths and the catalog I/O trace. -/
def scanPhotosWithMediaStore (env : ScanEnv)
    (directoriesToScan : List String) : List String × List ScanReq :=
  if env.android = false then ([], [])
  else
    match env.perm with
    | none => ([], [])
    | some p =>
      if p ≠ "granted" then ([], [])
      else
        match env.photosRes with
        | none => ([], [.media])
        | some photos =>
          if photos.length = 0 then ([], [.media])
          else
            let lowerPath : MediaPhoto → String :=
              fun ph => (ph.path.map toLowerStr).getD ""
            let filtered : List String :=
              if directoriesToScan = ["/DCIM/Camera"] then
                (photos.filter (fun ph =>
                    containsSubstr (lowerPath ph) "dcim/camera"
                      || containsSubstr (lowerPath ph) "dcim\\camera")).map
                  (fun ph => ph.path.getD "")
              else
                directoriesToScan.foldl
                  (fun acc d =>
                    let cleanDir := toLowerStr (stripSlashes d)
                    acc ++ ((photos.filter (fun ph =>
                        containsSubstr (lowerPath ph) cleanDir)).map
                      (fun ph => ph.path.getD "")))
                  []
            ((jsSetDedup filtered).filter (fun q => q.length > 0), [.media])

/-- The per-source-directory loop of the filesystem strategy (lines 590–629
with the empty-path check, lines 634–658 without).  The scanning flag is
read before each directory. -/
def scanDirs (env : ScanEnv) (checkEmpty : Bool) :
    List String → ScanOut → ScanOut
  | [], st => st
  | sourceDir :: rest, st =>
    if st.budget = 0 then st
    else
      let b1 := st.budget - 1
      let cleanPath := stripSlashes sourceDir
      if checkEmpty && (cleanPath == "") then
        scanDirs env checkEmpty rest ⟨st.photos, b1, st.trace⟩
      else
        let r := scanDirectoryRecursively env cleanPath 3 0 b1
        let photos' := if r.photos.length > 0 then st.photos ++ r.photos
                       else st.photos
        scanDirs env checkEmpty rest ⟨photos', r.budget, st.trace ++ r.trace⟩

/-- The effective directory list of a scan: the configured source
directories, or the default when none are configured. -/
def effectiveDirs (sourceDirectories : List String) : List String :=
  if sourceDirectories.length > 0 then sourceDirectories
  else ["/DCIM/Camera"]

/-- The raw photo collection of a full scan (lines 566–659): MediaStore
first on Android with filesystem fallback, filesystem only elsewhere. -/
def scanCollect (env : ScanEnv) (directoriesToScan : List String)
    (budget : Nat) : ScanOut :=
  if env.android then
    let ms := scanPhotosWithMediaStore env directoriesToScan
    if ms.1.length > 0 then ⟨ms.1, budget, ms.2⟩
    else scanDirs env true directoriesToScan ⟨[], budget, ms.2⟩
  else scanDirs env false directoriesToScan ⟨[], budget, []⟩

/-- The collected and deduplicated photos of a full scan, with its I/O
trace (lines 566–661). -/
def scannedPhotos (env : ScanEnv) (directoriesToScan : List String)
    (budget : Nat) : List String × List ScanReq :=
  (jsSetDedup (scanCollect env directoriesToScan budget).photos,
    (scanCollect env directoriesToScan budget).trace)

/-- Outcome of a `loadDevicePhotos` call: a no-op because a scan is already
running, a cache hit, or a completed scan. -/
inductive LoadOutcome where
  | busy
  | cached (photos : List String)
  | scanned (photos : List String)
deriving DecidableEq, Repr

/-- Result of a `loadDevicePhotos` call: the outcome, the cache cell after
the call, and the I/O trace. -/
structure LoadResult where
  outcome : LoadOutcome
  cacheAfter : Option ScanCache
  trace : List ScanReq
deriving Repr

/-- The part of `loadDevicePhotos` below the cache check (lines 562–700):
run the full scan, deduplicate, and replace the cache with the new result
keyed by the directories scanned and stamped with the current time. -/
def performFullScan (env : ScanEnv) (directoriesToScan : List String)
    (now budget : Nat) : LoadResult :=
  let p := scannedPhotos env directoriesToScan budget
  ⟨.scanned p.1,
    some { directories := directoriesToScan, photos := p.1,
           lastScanTime := now },
    p.2⟩

/-- The cache check of `loadDevicePhotos` (lines 544–560): a cache cell
exists, `forceRescan` is false, the directories are unchanged and the cache
age is below the 30-second TTL. -/
def cacheValid : Bool → Option ScanCache → List String → Nat → Bool
  | _, none, _, _ => false
  | forceRescan, some c, dirs, now =>
    (!forceRescan) && (!(hasDirectoriesChanged (some c) dirs))
      && decide (now - c.lastScanTime < 30000)

/-- The photos held by the cache cell (read only after `cacheValid`). -/
def cachedPhotos : Option ScanCache → List String
  | none => []
  | some c => c.photos

/-- `loadDevicePhotos(forceRescan)` (lines 532–703).  `scanning0` is the
value of `scanningRef.current` on entry, `cache0` the cache cell, `now` the
clock reading of the call. -/
def loadDevicePhotos (env : ScanEnv) (sourceDirectories : List String)
    (forceRescan scanning0 : Bool) (cache0 : Option ScanCache)
    (now budget : Nat) : LoadResult :=
  if scanning0 then ⟨.busy, cache0, []⟩
  else if cacheValid forceRescan cache0 (effectiveDirs sourceDirectories)
      now then
    ⟨.cached (cachedPhotos cache0), cache0, []⟩
  else performFullScan env (effectiveDirs sourceDirectories) now budget

/-! ## Concrete environments used by witnesses and counterexamples -/

/-- A fixed credential record. -/
def credsA : Credentials := ⟨"https://nc", "u", "p"⟩

/-- Orchestrator environment: reachable server, remote inventory `{b.jpg}`,
all reads succeed, all uploads accepted with status 201. -/
def envAllOk : BackupEnv :=
  { connStatus := some 207
    listRaw := some ["b.jpg"]
    readAbs := fun _ => some "DATA"
    readExt := fun _ => some "DATA"
    putStatus := fun _ => some 201 }

/-- Orchestrator environment: reachable server, empty remote inventory, all
reads succeed, the upload of `a.jpg` is rejected with status 500 and every
other upload is accepted with status 201. -/
def envAFails : BackupEnv :=
  { connStatus := some 207
    listRaw := some []
    readAbs := fun _ => some "DATA"
    readExt := fun _ => some "DATA"
    putStatus := fun url =>
      if url = putUrl credsA "/Photos/Backup" "a.jpg" then some 500
      else some 201 }

/-- Discovery environment: a small non-Android filesystem with a nested
directory chain `DCIM/Camera/sub/deep/deeper` and one photo per level;
`stat` always throws (the common Android situation). -/
def fsEnvA : ScanEnv :=
  { android := false, perm := none, photosRes := none
    readdir := fun p =>
      if p = "DCIM/Camera" then
        some [⟨"a.jpg", some "file"⟩, ⟨"sub", some "directory"⟩,
          ⟨"b.jpg", none⟩]
      else if p = "DCIM/Camera/sub" then
        some [⟨"c.jpg", none⟩, ⟨"deep", none⟩]
      else if p = "DCIM/Camera/sub/deep" then
        some [⟨"d.jpg", none⟩, ⟨"deeper", none⟩]
      else if p = "DCIM/Camera/sub/deep/deeper" then
        some [⟨"e.jpg", none⟩]
      else none
    statf := fun _ => none }

/-- Discovery environment with two root directories `A` and `B`, one photo
in each. -/
def fsEnvAB : ScanEnv :=
  { android := false, perm := none, photosRes := none
    readdir := fun p =>
      if p = "A" then some [⟨"a1.jpg", some "file"⟩]
      else if p = "B" then some [⟨"b1.jpg", some "file"⟩]
      else none
    statf := fun p =>
      if p = "A/a1.jpg" ∨ p = "B/b1.jpg" then some ⟨"file", 100⟩ else none }

/-- Discovery environment: a uniform infinite filesystem in which every
directory contains a subdirectory `d` and a photo `p.jpg`; `stat` always
throws. -/
def fsEnvU : ScanEnv :=
  { android := false, perm := none, photosRes := none
    readdir := fun _ => some [⟨"d", none⟩, ⟨"p.jpg", none⟩]
    statf := fun _ => none }

/-! # Theorems

Helper lemmas first, then one theorem per claim (with its witness or
counterexample where required). -/

theorem percentDecodeList_of_no_percent :
    ∀ l : List Char, '%' ∉ l → percentDecodeList l = l := by
  intro l
  induction l with
  | nil => intro _; rfl
  | cons c rest ih =>
    intro hmem
    have hc : ¬(c = '%') := fun e => hmem (by simp [e])
    have hrest : '%' ∉ rest := fun m => hmem (List.mem_cons_of_mem _ m)
    rw [percentDecodeList.eq_def]
    simp only [if_neg hc]
    exact congrArg (c :: ·) (ih hrest)

theorem decodeURIComponent_of_percentFree (s : String) (h : percentFree s) :
    decodeURIComponent s = s := by
  show String.mk (percentDecodeList s.data) = s
  rw [percentDecodeList_of_no_percent s.data h]

/-- C7, counterexample: the retention windows are exceeded.  Appending to
the discovery log 21 times from the empty log leaves 21 entries (the claim
says it never holds more than 20), and appending to the upload log 31 times
leaves 31 entries (the claim says at most 30): each append keeps the last 20
(resp. 30) previous entries *and* adds the new one. -/
theorem debugLogs_exceed_window :
    ((List.range 21).foldl (fun l i => addDebugInfo "t" (toString i) l)
        []).length = 21
    ∧ ((List.range 31).foldl
        (fun l i => addUploadDebugInfo "t" (toString i) l) []).length = 31 :=
  ⟨by decide, by decide⟩

/-- C7, amended: every append to the discovery log leaves at most 21
entries and every append to the upload log leaves at most 30 + 1 = 31
entries (`[...prev.slice(-N), entry]` keeps the last N previous entries plus
the new one), and the appended entry carries the timestamp. -/
theorem debugLogs_bounded (ts msg : String) (prev : List String) :
    (addDebugInfo ts msg prev).length ≤ 21
    ∧ (addDebugInfo ts msg prev).getLast? = some (ts ++ ": " ++ msg)
    ∧ (addUploadDebugInfo ts msg prev).length ≤ 31
    ∧ (addUploadDebugInfo ts msg prev).getLast? = some (ts ++ ": " ++ msg) := by
  refine ⟨?_, ?_, ?_, ?_⟩
  · simp only [addDebugInfo, jsSliceNeg, List.length_append,
      List.length_drop, List.length_cons, List.length_nil]
    omega
  · simp [addDebugInfo]
  · simp only [addUploadDebugInfo, jsSliceNeg, List.length_append,
      List.length_drop, List.length_cons, List.length_nil]
    omega
  · simp [addUploadDebugInfo]

/-- C9, counterexample: the self-entry exclusion compares the *raw* capture
against the target directory's final segment before percent-decoding, so a
listing whose raw capture is `B%61ckup` produces the inventory `["Backup"]`,
which does contain the final segment `Backup` of the queried directory
`/Photos/Backup` — contradicting the claim that the inventory never contains
a name equal to that segment. -/
theorem inventory_contains_decoded_selfName :
    getNextcloudFiles (some credsA) "/Photos/Backup" (some ["B%61ckup"])
        = ["Backup"]
    ∧ jsSplitPop '/' "/Photos/Backup" = "Backup"
    ∧ "Backup" ∈ getNextcloudFiles (some credsA) "/Photos/Backup"
        (some ["B%61ckup"]) :=
  ⟨by decide, by decide, by decide⟩

/-- C1: on the code as written the claim fails.  With credentials
configured, local files `/a.jpg, /b.jpg, /c.jpg`, remote inventory
`{b.jpg}`, a reachable server and every upload accepted, a normally invoked
run (the `isBackingUp` value captured by the running closure is `false`,
since the Start-Backup button is enabled only while `isBackingUp` is false)
reports `{uploaded: 0, skipped: 0, total: 3}` and issues no `PUT` at all:
the loop's cancellation check `if (!isBackingUp) break` reads the stale
captured value and exits before the first file.  Re-running the model with
the captured flag `true` yields exactly the claimed `{2, 1, 3}`, locating
the slip in the flag and not in the reconciliation logic. -/
theorem performBackup_staleFlag :
    (performBackup envAllOk (some credsA) "/Photos/Backup"
        ["/a.jpg", "/b.jpg", "/c.jpg"] false [] "t").summary = some (0, 0, 3)
    ∧ ((performBackup envAllOk (some credsA) "/Photos/Backup"
        ["/a.jpg", "/b.jpg", "/c.jpg"] false [] "t").requests.filter
          isPutReq) = []
    ∧ (performBackup envAllOk (some credsA) "/Photos/Backup"
        ["/a.jpg", "/b.jpg", "/c.jpg"] true [] "t").summary
        = some (2, 1, 3) :=
  ⟨rfl, rfl, rfl⟩

/-- C2, counterexample: with credentials configured, a reachable server and
an *empty* source list, the run still issues the connectivity `GET` and the
inventory `PROPFIND` — contradicting the claim that no remote request
(neither the connectivity check nor the inventory listing) is issued for
such a run. -/
theorem performBackup_emptySources_contactsNetwork :
    (performBackup envAllOk (some credsA) "/Photos/Backup" [] false []
        "t").requests = [HttpReq.connGet, HttpReq.propfind "/Photos/Backup"]
    ∧ (performBackup envAllOk (some credsA) "/Photos/Backup" [] false []
        "t").summary = none :=
  ⟨rfl, rfl⟩

/-- C2, amended: with credentials configured, a reachable server and an
empty source file list, the run reports "No photos found to backup. Please
scan for photos first." and returns without attempting any upload — but
only after issuing the connectivity check and the inventory listing; the
empty-source check is not a pre-network fast-fail.  The issued requests are
exactly the connectivity `GET` and the inventory `PROPFIND` (no `PUT`), and
no summary is produced. -/
theorem performBackup_emptySources_noUpload (env : BackupEnv)
    (c : Credentials) (tgt : String) (flag0 : Bool) (log0 : List String)
    (ts : String) (hconn : env.connStatus = some 207) :
    (performBackup env (some c) tgt [] flag0 log0 ts).requests
        = [HttpReq.connGet, HttpReq.propfind tgt]
    ∧ (performBackup env (some c) tgt [] flag0 log0 ts).summary = none
    ∧ (performBackup env (some c) tgt [] flag0 log0 ts).statuses.getLast?
        = some "No photos found to backup. Please scan for photos first." := by
  have hb : (env.connStatus == some 207) = true := by rw [hconn]; rfl
  simp [performBackup, hb, logMsgs]

/-- C2 witness: `performBackup_emptySources_noUpload` instantiated on the
concrete environment `envAllOk`. -/
theorem performBackup_emptySources_noUpload_witness :
    (performBackup envAllOk (some credsA) "/Photos/Backup" [] false []
        "t").requests = [HttpReq.connGet, HttpReq.propfind "/Photos/Backup"]
    ∧ (performBackup envAllOk (some credsA) "/Photos/Backup" [] false []
        "t").summary = none
    ∧ (performBackup envAllOk (some credsA) "/Photos/Backup" [] false []
        "t").statuses.getLast?
        = some "No photos found to backup. Please scan for photos first." :=
  performBackup_emptySources_noUpload envAllOk credsA "/Photos/Backup" false
    [] "t" rfl

theorem zip_all_eq :
    ∀ l1 l2 : List String, l1.length = l2.length →
      ((l1.zip l2).all fun p => p.1 == p.2) = true → l1 = l2 := by
  intro l1
  induction l1 with
  | nil =>
    intro l2 h _
    cases l2 with
    | nil => rfl
    | cons b t2 => simp at h
  | cons a t ih =>
    intro l2 h hall
    cases l2 with
    | nil => simp at h
    | cons b t2 =>
      simp only [List.zip_cons_cons, List.all_cons, Bool.and_eq_true] at hall
      have hab : a = b := by
        have := hall.1
        exact eq_of_beq this
      have ht : t = t2 := ih t2 (by simpa using h) hall.2
      rw [hab, ht]

theorem hasDirectoriesChanged_self (dirs ph : List String) (t : Nat) :
    hasDirectoriesChanged (some ⟨dirs, ph, t⟩) dirs = false := by
  have hall : ∀ l : List String, ((l.zip l).all fun p => p.1 == p.2) = true := by
    intro l
    induction l with
    | nil => rfl
    | cons a t2 ih => simp [List.zip_cons_cons, List.all_cons, ih]
  simp only [hasDirectoriesChanged]
  rw [if_neg (fun h => h rfl)]
  simp [hall dirs]

theorem hasDirectoriesChanged_of_ne (c : ScanCache) (dirs : List String)
    (h : c.directories ≠ dirs) :
    hasDirectoriesChanged (some c) dirs = true := by
  simp only [hasDirectoriesChanged]
  by_cases hl : c.directories.length = dirs.length
  · rw [if_neg (fun hne => hne hl)]
    have : ¬(((c.directories.zip dirs).all fun p => p.1 == p.2) = true) :=
      fun hall => h (zip_all_eq _ _ hl hall)
    simp [Bool.not_eq_true] at this
    simp [this]
  · rw [if_pos hl]

theorem loadDevicePhotos_scanned (env : ScanEnv) (cfg : List String)
    (force scanning0 : Bool) (cache0 : Option ScanCache) (now b : Nat)
    (ph : List String)
    (h : (loadDevicePhotos env cfg force scanning0 cache0 now b).outcome
      = .scanned ph) :
    loadDevicePhotos env cfg force scanning0 cache0 now b
        = performFullScan env (effectiveDirs cfg) now b
    ∧ ph = (scannedPhotos env (effectiveDirs cfg) b).1 := by
  by_cases hs : scanning0 = true
  · rw [loadDevicePhotos, if_pos hs] at h
    simp at h
  · by_cases hv : cacheValid force cache0 (effectiveDirs cfg) now = true
    · rw [loadDevicePhotos, if_neg hs, if_pos hv] at h
      simp at h
    · rw [loadDevicePhotos, if_neg hs, if_neg hv] at h
      rw [loadDevicePhotos, if_neg hs, if_neg hv]
      refine ⟨rfl, ?_⟩
      have hout : (performFullScan env (effectiveDirs cfg) now b).outcome
          = .scanned ((scannedPhotos env (effectiveDirs cfg) b).1) := rfl
      rw [hout] at h
      injection h with h2
      exact h2.symm

/-- C3: if a first scan call completes a full scan and a second call is made
with the same `sourceDirs`, `forceRescan = false`, no scan in progress, and
less than 30 seconds after the first completed, then the second call is
served from the cache: it performs no directory-listing or catalog I/O (its
I/O trace is empty, whatever the second call's environment) and returns
exactly the photo set produced and cached by the first call. -/
theorem scan_cacheHit_no_listing (env1 env2 : ScanEnv) (cfg : List String)
    (force1 : Bool) (cache0 : Option ScanCache) (now1 b1 now2 b2 : Nat)
    (ph : List String)
    (h1 : (loadDevicePhotos env1 cfg force1 false cache0 now1 b1).outcome
      = .scanned ph)
    (h30 : now2 - now1 < 30000) :
    (loadDevicePhotos env2 cfg false false
        (loadDevicePhotos env1 cfg force1 false cache0 now1 b1).cacheAfter
        now2 b2).outcome = .cached ph
    ∧ (loadDevicePhotos env2 cfg false false
        (loadDevicePhotos env1 cfg force1 false cache0 now1 b1).cacheAfter
        now2 b2).trace = [] := by
  obtain ⟨heq, hph⟩ := loadDevicePhotos_scanned env1 cfg force1 false cache0
    now1 b1 ph h1
  rw [heq]
  have hca : (performFullScan env1 (effectiveDirs cfg) now1 b1).cacheAfter
      = some ⟨effectiveDirs cfg, (scannedPhotos env1 (effectiveDirs cfg) b1).1,
        now1⟩ := rfl
  rw [hca]
  have hcond : cacheValid false
      (some ⟨effectiveDirs cfg, (scannedPhotos env1 (effectiveDirs cfg) b1).1,
        now1⟩) (effectiveDirs cfg) now2 = true := by
    simp only [cacheValid]
    rw [hasDirectoriesChanged_self]
    simp [h30]
  rw [loadDevicePhotos, if_neg (by simp), if_pos hcond]
  refine ⟨?_, rfl⟩
  show LoadOutcome.cached (scannedPhotos env1 (effectiveDirs cfg) b1).1
      = LoadOutcome.cached ph
  rw [hph]

/-- C3 witness: concrete instance of `scan_cacheHit_no_listing` on the
filesystem `fsEnvA` (first scan at time 1000, second call at 20000). -/
theorem scan_cacheHit_no_listing_witness :
    (loadDevicePhotos fsEnvA ["/DCIM/Camera"] false false
        (loadDevicePhotos fsEnvA ["/DCIM/Camera"] false false none 1000
          999).cacheAfter 20000 999).outcome
      = .cached ["DCIM/Camera/a.jpg", "DCIM/Camera/sub/c.jpg",
          "DCIM/Camera/sub/deep/d.jpg", "DCIM/Camera/b.jpg"]
    ∧ (loadDevicePhotos fsEnvA ["/DCIM/Camera"] false false
        (loadDevicePhotos fsEnvA ["/DCIM/Camera"] false false none 1000
          999).cacheAfter 20000 999).trace = [] :=
  scan_cacheHit_no_listing fsEnvA fsEnvA ["/DCIM/Camera"] false none 1000 999
    20000 999
    ["DCIM/Camera/a.jpg", "DCIM/Camera/sub/c.jpg",
      "DCIM/Camera/sub/deep/d.jpg", "DCIM/Camera/b.jpg"]
    (by decide) (by decide)

/-- C4: if the cache holds a different directory sequence than the one the
call scans (different length or different at some position — in particular a
mere reordering), the call does not return the cached result but performs
the full rescan, whatever `forceRescan` and however recent the cache
(`now` unconstrained). -/
theorem scan_changedDirs_forcesRescan (env : ScanEnv) (cfg : List String)
    (force : Bool) (c : ScanCache) (now b : Nat)
    (hne : c.directories ≠ effectiveDirs cfg) :
    loadDevicePhotos env cfg force false (some c) now b
      = performFullScan env (effectiveDirs cfg) now b := by
  rw [loadDevicePhotos, if_neg (by simp), if_neg]
  simp only [cacheValid]
  rw [hasDirectoriesChanged_of_ne c _ hne]
  simp

/-- C4 witness: a reordered directory sequence with a fresh cache
(timestamp = call time, so the TTL alone would allow a hit) still triggers
the full rescan. -/
theorem scan_changedDirs_forcesRescan_witness :
    (⟨["/A", "/B"], ["x.jpg"], 1000⟩ : ScanCache).directories
        ≠ effectiveDirs ["/B", "/A"]
    ∧ loadDevicePhotos fsEnvAB ["/B", "/A"] false false
        (some ⟨["/A", "/B"], ["x.jpg"], 1000⟩) 1000 999
      = performFullScan fsEnvAB (effectiveDirs ["/B", "/A"]) 1000 999 :=
  ⟨by decide,
    scan_changedDirs_forcesRescan fsEnvAB ["/B", "/A"] false
      ⟨["/A", "/B"], ["x.jpg"], 1000⟩ 1000 999 (by decide)⟩

theorem jsSetDedup_aux_nodup :
    ∀ l acc : List String, acc.Nodup →
      (l.foldl (fun acc x => if x ∈ acc then acc else acc ++ [x]) acc).Nodup := by
  intro l
  induction l with
  | nil => intro acc h; exact h
  | cons x t ih =>
    intro acc h
    simp only [List.foldl_cons]
    by_cases hx : x ∈ acc
    · rw [if_pos hx]; exact ih acc h
    · rw [if_neg hx]
      refine ih _ ?_
      rw [List.nodup_append]
      exact ⟨h, List.nodup_singleton x, by simpa using hx⟩

theorem jsSetDedup_nodup (l : List String) : (jsSetDedup l).Nodup :=
  jsSetDedup_aux_nodup l [] List.nodup_nil

/-- C5: every completed scan returns a duplicate-free sequence, and stores
exactly that sequence in the scan cache — for every environment (both
discovery strategies), every configuration, cache state, clock and
cancellation budget. -/
theorem scan_result_nodup (env : ScanEnv) (cfg : List String)
    (force scanning0 : Bool) (cache0 : Option ScanCache) (now b : Nat)
    (ph : List String)
    (h : (loadDevicePhotos env cfg force scanning0 cache0 now b).outcome
      = .scanned ph) :
    ph.Nodup
    ∧ (loadDevicePhotos env cfg force scanning0 cache0 now b).cacheAfter
        = some ⟨effectiveDirs cfg, ph, now⟩ := by
  obtain ⟨heq, hph⟩ := loadDevicePhotos_scanned env cfg force scanning0 cache0
    now b ph h
  constructor
  · rw [hph]
    exact jsSetDedup_nodup _
  · rw [heq, hph]
    rfl

/-- C5 witness: concrete instance of `scan_result_nodup` on `fsEnvA`. -/
theorem scan_result_nodup_witness :
    (["DCIM/Camera/a.jpg", "DCIM/Camera/sub/c.jpg",
        "DCIM/Camera/sub/deep/d.jpg", "DCIM/Camera/b.jpg"] :
      List String).Nodup
    ∧ (loadDevicePhotos fsEnvA ["/DCIM/Camera"] false false none 1000
        999).cacheAfter
      = some ⟨effectiveDirs ["/DCIM/Camera"],
          ["DCIM/Camera/a.jpg", "DCIM/Camera/sub/c.jpg",
            "DCIM/Camera/sub/deep/d.jpg", "DCIM/Camera/b.jpg"], 1000⟩ :=
  scan_result_nodup fsEnvA ["/DCIM/Camera"] false false none 1000 999
    ["DCIM/Camera/a.jpg", "DCIM/Camera/sub/c.jpg",
      "DCIM/Camera/sub/deep/d.jpg", "DCIM/Camera/b.jpg"]
    (by decide)

/-- C10: a scan that completes — in particular one cancelled mid-walk, i.e.
run with any flag-read budget, under which the walk returns the partial
results gathered so far without error — still replaces the scan cache with
the (deduplicated) returned photo set, keyed by the full requested directory
sequence and stamped with the call's clock reading; a subsequent call within
30 seconds with the same directories is served that photo set from the
cache. -/
theorem scan_cancelled_kept_in_cache (env env2 : ScanEnv) (cfg : List String)
    (force : Bool) (cache0 : Option ScanCache) (now b now2 b2 : Nat)
    (ph : List String)
    (h : (loadDevicePhotos env cfg force false cache0 now b).outcome
      = .scanned ph)
    (h30 : now2 - now < 30000) :
    (loadDevicePhotos env cfg force false cache0 now b).cacheAfter
        = some ⟨effectiveDirs cfg, ph, now⟩
    ∧ (loadDevicePhotos env2 cfg false false
        (loadDevicePhotos env cfg force false cache0 now b).cacheAfter
        now2 b2).outcome = .cached ph := by
  refine ⟨(scan_result_nodup env cfg force false cache0 now b ph h).2, ?_⟩
  exact (scan_cacheHit_no_listing env env2 cfg force cache0 now b now2 b2 ph
    h h30).1

/-- C10 witness: on `fsEnvA` with a flag-read budget of 3 the walk is
cancelled after three entries; the partial result (one photo) is cached and
served to the next call. -/
theorem scan_cancelled_kept_in_cache_witness :
    (loadDevicePhotos fsEnvA ["/DCIM/Camera"] false false none 1000
        3).cacheAfter
      = some ⟨effectiveDirs ["/DCIM/Camera"], ["DCIM/Camera/a.jpg"], 1000⟩
    ∧ (loadDevicePhotos fsEnvA ["/DCIM/Camera"] false false
        (loadDevicePhotos fsEnvA ["/DCIM/Camera"] false false none 1000
          3).cacheAfter 5000 999).outcome
      = .cached ["DCIM/Camera/a.jpg"] :=
  scan_cancelled_kept_in_cache fsEnvA fsEnvA ["/DCIM/Camera"] false none 1000
    3 5000 999 ["DCIM/Camera/a.jpg"] (by decide) (by decide)

theorem logMsgs_spec (ts : String) : ∀ (msgs : List String) (st : LoopSt),
    (logMsgs ts st msgs).uploaded = st.uploaded
    ∧ (logMsgs ts st msgs).skipped = st.skipped
    ∧ (logMsgs ts st msgs).statuses = st.statuses
    ∧ (logMsgs ts st msgs).requests = st.requests
    ∧ (logMsgs ts st msgs).events
        = st.events ++ msgs.map (fun m => ts ++ ": " ++ m) := by
  intro msgs
  induction msgs with
  | nil =>
    intro st
    simp [logMsgs]
  | cons m ms ih =>
    intro st
    have step : logMsgs ts st (m :: ms)
        = logMsgs ts
          { st with
            events := st.events ++ [ts ++ ": " ++ m]
            log := addUploadDebugInfo ts m st.log } ms := by
      simp [logMsgs]
    rw [step]
    obtain ⟨h1, h2, h3, h4, h5⟩ := ih { st with
      events := st.events ++ [ts ++ ": " ++ m]
      log := addUploadDebugInfo ts m st.log }
    refine ⟨by rw [h1], by rw [h2], by rw [h3], by rw [h4], ?_⟩
    rw [h5]
    simp

theorem uploadPhoto_put_of_read (env : BackupEnv) (c : Credentials)
    (p fn ntd : String) (h : (readFileFlexible env p).1.isSome = true) :
    (uploadPhotoToNextcloud env (some c) p fn ntd).2.2
      = [HttpReq.put (putUrl c ntd fn)] := by
  obtain ⟨d, hd⟩ := Option.isSome_iff_exists.mp h
  simp only [uploadPhotoToNextcloud, hd]
  cases hps : env.putStatus (putUrl c ntd fn) with
  | none => simp [hps]
  | some s => simp [hps]

theorem logMsgs_uploaded (ts : String) (msgs : List String) (st : LoopSt) :
    (logMsgs ts st msgs).uploaded = st.uploaded := (logMsgs_spec ts msgs st).1

theorem logMsgs_skipped (ts : String) (msgs : List String) (st : LoopSt) :
    (logMsgs ts st msgs).skipped = st.skipped := (logMsgs_spec ts msgs st).2.1

theorem logMsgs_statuses (ts : String) (msgs : List String) (st : LoopSt) :
    (logMsgs ts st msgs).statuses = st.statuses := (logMsgs_spec ts msgs st).2.2.1

theorem logMsgs_requests (ts : String) (msgs : List String) (st : LoopSt) :
    (logMsgs ts st msgs).requests = st.requests := (logMsgs_spec ts msgs st).2.2.2.1

theorem logMsgs_events (ts : String) (msgs : List String) (st : LoopSt) :
    (logMsgs ts st msgs).events
      = st.events ++ msgs.map (fun m => ts ++ ": " ++ m) :=
  (logMsgs_spec ts msgs st).2.2.2.2

theorem uploadStep_spec (env : BackupEnv) (c : Credentials) (ntd : String)
    (existing : List String) (N : Nat) (ts : String) (p : String)
    (st : LoopSt) :
    ((uploadStep env c ntd existing N ts p st).uploaded
        = st.uploaded
          + (if pendingFile existing p && uploadOK env c ntd p then 1 else 0))
    ∧ ((uploadStep env c ntd existing N ts p st).skipped
        = st.skipped
          + (if existing.contains (fileNameOf p) = true then 1 else 0))
    ∧ (∃ tail, (uploadStep env c ntd existing N ts p st).events
        = st.events ++ tail)
    ∧ (∃ tail, (uploadStep env c ntd existing N ts p st).requests
        = st.requests ++ tail)
    ∧ (pendingFile existing p = true → uploadOK env c ntd p = false →
        failEvent ts p ∈ (uploadStep env c ntd existing N ts p st).events)
    ∧ (pendingFile existing p = true →
        (readFileFlexible env p).1.isSome = true →
        HttpReq.put (putUrl c ntd (fileNameOf p))
          ∈ (uploadStep env c ntd existing N ts p st).requests) := by
  by_cases hc : existing.contains (fileNameOf p) = true
  · have hmem : fileNameOf p ∈ existing := by simpa using hc
    have hpendF : pendingFile existing p = false := by
      simp [pendingFile, hmem]
    refine ⟨?_, ?_, ?_, ?_, ?_, ?_⟩
    · simp [uploadStep, hmem, hpendF, logMsgs_uploaded, logMsgs_skipped]
    · simp [uploadStep, hmem, hc, logMsgs_uploaded, logMsgs_skipped]
    · simp only [uploadStep, if_pos hc, logMsgs_events, List.append_assoc]
      exact ⟨_, rfl⟩
    · simp only [uploadStep, if_pos hc, logMsgs_requests]
      exact ⟨[], (List.append_nil _).symm⟩
    · intro hpend
      rw [hpendF] at hpend
      simp at hpend
    · intro hpend
      rw [hpendF] at hpend
      simp at hpend
  · have hnmem : fileNameOf p ∉ existing := by simpa using hc
    have hcf : existing.contains (fileNameOf p) = false := by
      simpa using hc
    have hpendT : pendingFile existing p = true := by
      simp [pendingFile, hnmem]
    by_cases hok : (uploadPhotoToNextcloud env (some c) p (fileNameOf p)
        ntd).1 = true
    · have hupT : uploadOK env c ntd p = true := hok
      refine ⟨?_, ?_, ?_, ?_, ?_, ?_⟩
      · simp [uploadStep, hnmem, hok, hpendT, hupT, logMsgs_uploaded,
          logMsgs_skipped]
      · simp [uploadStep, hnmem, hok, hcf, logMsgs_uploaded,
          logMsgs_skipped]
      · simp only [uploadStep, if_neg hc, if_pos hok, logMsgs_events,
          List.append_assoc]
        exact ⟨_, rfl⟩
      · simp only [uploadStep, if_neg hc, if_pos hok, logMsgs_requests,
          List.append_assoc]
        exact ⟨_, rfl⟩
      · intro _ hnok
        rw [show uploadOK env c ntd p = true from hupT] at hnok
        simp at hnok
      · intro _ hread
        simp only [uploadStep, if_neg hc, if_pos hok, logMsgs_requests]
        rw [uploadPhoto_put_of_read env c p (fileNameOf p) ntd hread]
        simp
    · have hupF : uploadOK env c ntd p = false := by
        simpa [uploadOK] using hok
      refine ⟨?_, ?_, ?_, ?_, ?_, ?_⟩
      · simp [uploadStep, hnmem, hok, hupF, logMsgs_uploaded,
          logMsgs_skipped]
      · simp [uploadStep, hnmem, hok, hcf, logMsgs_uploaded,
          logMsgs_skipped]
      · simp only [uploadStep, if_neg hc, if_neg hok, logMsgs_events,
          List.append_assoc]
        exact ⟨_, rfl⟩
      · simp only [uploadStep, if_neg hc, if_neg hok, logMsgs_requests,
          List.append_assoc]
        exact ⟨_, rfl⟩
      · intro _ _
        simp only [uploadStep, if_neg hc, if_neg hok, logMsgs_events,
          List.append_assoc, failEvent]
        simp
      · intro _ hread
        simp only [uploadStep, if_neg hc, if_neg hok, logMsgs_requests]
        rw [uploadPhoto_put_of_read env c p (fileNameOf p) ntd hread]
        simp

theorem uploadLoop_spec (env : BackupEnv) (c : Credentials) (ntd : String)
    (existing : List String) (N : Nat) (ts : String) :
    ∀ (photos : List String) (st : LoopSt),
      ((uploadLoop env c ntd existing N true ts photos st).uploaded
          = st.uploaded + countUploads env c ntd existing photos)
      ∧ ((uploadLoop env c ntd existing N true ts photos st).skipped
          = st.skipped + countSkips existing photos)
      ∧ (∀ e ∈ st.events,
          e ∈ (uploadLoop env c ntd existing N true ts photos st).events)
      ∧ (∀ r ∈ st.requests,
          r ∈ (uploadLoop env c ntd existing N true ts photos st).requests)
      ∧ (∀ p ∈ photos, pendingFile existing p = true →
          uploadOK env c ntd p = false →
          failEvent ts p
            ∈ (uploadLoop env c ntd existing N true ts photos st).events)
      ∧ (∀ p ∈ photos, pendingFile existing p = true →
          (readFileFlexible env p).1.isSome = true →
          HttpReq.put (putUrl c ntd (fileNameOf p))
            ∈ (uploadLoop env c ntd existing N true ts photos st).requests) := by
  intro photos
  induction photos with
  | nil =>
    intro st
    refine ⟨?_, ?_, ?_, ?_, ?_, ?_⟩ <;>
      simp [uploadLoop, countUploads, countSkips]
  | cons p rest ih =>
    intro st
    have hloop : uploadLoop env c ntd existing N true ts (p :: rest) st
        = uploadLoop env c ntd existing N true ts rest
            (uploadStep env c ntd existing N ts p st) := by
      simp [uploadLoop]
    have hstep := uploadStep_spec env c ntd existing N ts p st
    have IH := ih (uploadStep env c ntd existing N ts p st)
    rw [hloop]
    refine ⟨?_, ?_, ?_, ?_, ?_, ?_⟩
    · rw [IH.1, hstep.1]
      simp only [countUploads, List.filter_cons]
      cases hcnd : (pendingFile existing p && uploadOK env c ntd p) <;>
        simp [hcnd] <;> omega
    · rw [IH.2.1, hstep.2.1]
      simp only [countSkips, List.filter_cons]
      cases hcnd : existing.contains (fileNameOf p) <;>
        simp [hcnd] <;> omega
    · intro e he
      obtain ⟨tail, htail⟩ := hstep.2.2.1
      exact IH.2.2.1 e (by rw [htail]; exact List.mem_append_left _ he)
    · intro r hr
      obtain ⟨tail, htail⟩ := hstep.2.2.2.1
      exact IH.2.2.2.1 r (by rw [htail]; exact List.mem_append_left _ hr)
    · intro q hq hpend hnok
      rcases List.mem_cons.mp hq with hq | hq
      · subst hq
        exact IH.2.2.1 _ (hstep.2.2.2.2.1 hpend hnok)
      · exact IH.2.2.2.2.1 q hq hpend hnok
    · intro q hq hpend hread
      rcases List.mem_cons.mp hq with hq | hq
      · subst hq
        exact IH.2.2.2.1 _ (hstep.2.2.2.2.2 hpend hread)
      · exact IH.2.2.2.2.2 q hq hpend hread

theorem uploadLoop_uploaded (env : BackupEnv) (c : Credentials) (ntd : String)
    (existing : List String) (N : Nat) (ts : String) (photos : List String)
    (st : LoopSt) :
    (uploadLoop env c ntd existing N true ts photos st).uploaded
      = st.uploaded + countUploads env c ntd existing photos :=
  (uploadLoop_spec env c ntd existing N ts photos st).1

theorem uploadLoop_skipped (env : BackupEnv) (c : Credentials) (ntd : String)
    (existing : List String) (N : Nat) (ts : String) (photos : List String)
    (st : LoopSt) :
    (uploadLoop env c ntd existing N true ts photos st).skipped
      = st.skipped + countSkips existing photos :=
  (uploadLoop_spec env c ntd existing N ts photos st).2.1

/-- C6: with credentials, a reachable server and a fetched inventory, a run
whose upload loop executes (captured in-progress flag `true` — the only runs
in which any file is attempted, see C1) processes every source file and
completes normally with a summary: `uploadedCount` counts exactly the pending
files whose upload returned a 2xx status (a read failure or an upload
failure/exception makes `uploadPhotoToNextcloud` return `false` and only
excludes that file from the count — the loop continues), `skippedCount`
counts the files whose name is in the inventory, and every pending file whose
upload failed has a "Failed to upload" entry recorded in the upload
diagnostic events. -/
theorem backup_partialFailure_tolerated (env : BackupEnv) (c : Credentials)
    (tgt : String) (photos : List String) (log0 : List String) (ts : String)
    (hconn : env.connStatus = some 207) (hne : photos ≠ []) :
    (performBackup env (some c) tgt photos true log0 ts).summary
        = some (countUploads env c (normalizedTargetDir tgt)
              (getNextcloudFiles (some c) tgt env.listRaw) photos,
            countSkips (getNextcloudFiles (some c) tgt env.listRaw) photos,
            photos.length)
    ∧ (∀ p ∈ photos,
        pendingFile (getNextcloudFiles (some c) tgt env.listRaw) p = true →
        uploadOK env c (normalizedTargetDir tgt) p = false →
        failEvent ts p
          ∈ (performBackup env (some c) tgt photos true log0 ts).events) := by
  have hb : (env.connStatus == some 207) = true := by rw [hconn]; rfl
  have hlen : ¬(photos.length = 0) := by
    simpa [List.length_eq_zero] using hne
  constructor
  · simp [performBackup, hb, hlen, uploadLoop_uploaded, uploadLoop_skipped,
      logMsgs_uploaded, logMsgs_skipped]
  · intro p hp hpend hnok
    simp only [performBackup, hb]
    rw [if_neg (by simp), if_neg hlen, logMsgs_events]
    apply List.mem_append_left
    exact (uploadLoop_spec env c (normalizedTargetDir tgt)
      (getNextcloudFiles (some c) tgt env.listRaw) photos.length ts photos
      _).2.2.2.2.1 p hp hpend hnok

/-- C6 witness: on `envAFails` (upload of `a.jpg` rejected with status 500,
`c.jpg` accepted) the run completes with `uploaded = 1` and a diagnostic
entry marking `a.jpg` as failed. -/
theorem backup_partialFailure_tolerated_witness :
    (performBackup envAFails (some credsA) "/Photos/Backup"
        ["/a.jpg", "/c.jpg"] true [] "t").summary = some (1, 0, 2)
    ∧ failEvent "t" "/a.jpg"
        ∈ (performBackup envAFails (some credsA) "/Photos/Backup"
            ["/a.jpg", "/c.jpg"] true [] "t").events := by
  have h := backup_partialFailure_tolerated envAFails credsA "/Photos/Backup"
    ["/a.jpg", "/c.jpg"] [] "t" rfl (by decide)
  refine ⟨?_, ?_⟩
  · rw [h.1]; rfl
  · exact h.2 "/a.jpg" (by decide) (by decide) (by decide)

/-- C9, amended: the self-entry exclusion of `getNextcloudFiles` compares
the *raw* (still percent-encoded) extracted name against the target
directory's final path segment, so when the extracted names contain no
percent-escapes (the normal case — decoding is then the identity) the
returned inventory never contains that segment; consequently a local file
whose base name equals the segment is never found in the inventory, is
treated as pending, and in any run whose upload loop executes and whose
content is readable its upload request is issued again. -/
theorem selfEntry_raw_exclusion (env : BackupEnv) (c : Credentials)
    (tgt : String) (raws : List String) (photos log0 : List String)
    (ts p : String)
    (hfree : ∀ r ∈ raws, percentFree r)
    (hlist : env.listRaw = some raws)
    (hconn : env.connStatus = some 207)
    (hp : p ∈ photos)
    (hname : fileNameOf p = jsSplitPop '/' tgt)
    (hread : (readFileFlexible env p).1.isSome = true) :
    jsSplitPop '/' tgt ∉ getNextcloudFiles (some c) tgt (some raws)
    ∧ HttpReq.put (putUrl c (normalizedTargetDir tgt) (fileNameOf p))
        ∈ (performBackup env (some c) tgt photos true log0 ts).requests := by
  have hnotmem : jsSplitPop '/' tgt ∉ getNextcloudFiles (some c) tgt (some raws) := by
    intro hmem
    simp only [getNextcloudFiles, List.mem_map, List.mem_filter] at hmem
    obtain ⟨r, ⟨hr, hrp⟩, hdec⟩ := hmem
    have hfr := hfree r hr
    rw [decodeURIComponent_of_percentFree r hfr] at hdec
    rw [hdec] at hrp
    simp at hrp
  refine ⟨hnotmem, ?_⟩
  have hb : (env.connStatus == some 207) = true := by rw [hconn]; rfl
  have hlen : ¬(photos.length = 0) := by
    have := List.ne_nil_of_mem hp
    simpa [List.length_eq_zero] using this
  have hpend : pendingFile (getNextcloudFiles (some c) tgt env.listRaw) p
      = true := by
    rw [hlist]
    simp only [pendingFile, Bool.not_eq_true']
    rw [hname]
    simpa using hnotmem
  simp only [performBackup, hb]
  rw [if_neg (by simp), if_neg hlen]
  exact (uploadLoop_spec env c (normalizedTargetDir tgt)
    (getNextcloudFiles (some c) tgt env.listRaw) photos.length ts photos
    _).2.2.2.2.2 p hp hpend hread

theorem fullPath_slashes (basePath name : String) (h : slashes name = 0) :
    slashes (if basePath ≠ "" then basePath ++ "/" ++ name else name)
      ≤ slashes basePath + 1 := by
  by_cases hb : basePath ≠ ""
  · rw [if_pos hb]
    show ((basePath ++ "/" ++ name).data.count '/') ≤ _
    rw [String.data_append, String.data_append, List.count_append,
      List.count_append]
    have hn : name.data.count '/' = 0 := h
    rw [hn]
    show slashes basePath + ("/".data.count '/') + 0 ≤ slashes basePath + 1
    simp [slashes]
  · rw [if_neg hb]
    show slashes name ≤ _
    omega

theorem scanLoop_trace_bound (env : ScanEnv) (basePath : String) (F : Nat)
    (recurse : String → Nat → ScanOut)
    (hrec : ∀ p b, ∀ q ∈ (recurse p b).trace,
      slashes (reqPath q) ≤ slashes p + F) :
    ∀ (files : List FileInfo) (st : ScanOut),
      (∀ f ∈ files, slashes f.name = 0) →
      (∀ q ∈ st.trace, slashes (reqPath q) ≤ slashes basePath + F + 1) →
      ∀ q ∈ (scanLoop recurse env basePath files st).trace,
        slashes (reqPath q) ≤ slashes basePath + F + 1 := by
  intro files
  induction files with
  | nil =>
    intro st _ hst q hq
    simp only [scanLoop] at hq
    exact hst q hq
  | cons f rest ih =>
    intro st hnames hst q hq
    have hname0 : slashes f.name = 0 := hnames f (by simp)
    have hfull := fullPath_slashes basePath f.name hname0
    have hrest : ∀ g ∈ rest, slashes g.name = 0 :=
      fun g hg => hnames g (List.mem_cons_of_mem f hg)
    simp only [scanLoop] at hq
    by_cases hbud : st.budget = 0
    · rw [if_pos hbud] at hq
      exact hst q hq
    · rw [if_neg hbud] at hq
      by_cases hph : isPhotoExt (toLowerStr f.name) = true
      · rw [if_pos hph] at hq
        rcases hstat : env.statf
            (if basePath ≠ "" then basePath ++ "/" ++ f.name else f.name) with
          _ | info
        · rw [hstat] at hq
          refine ih _ hrest ?_ q hq
          intro q2 hq2
          simp only [List.mem_append, List.mem_singleton] at hq2
          rcases hq2 with hq2 | hq2
          · exact hst q2 hq2
          · rw [hq2]; exact le_trans hfull (by omega)
        · rw [hstat] at hq
          refine ih _ hrest ?_ q hq
          intro q2 hq2
          simp only [List.mem_append, List.mem_singleton] at hq2
          rcases hq2 with hq2 | hq2
          · exact hst q2 hq2
          · rw [hq2]; exact le_trans hfull (by omega)
      · rw [if_neg hph] at hq
        split at hq
        · -- ftype = some "directory": recurse
          refine ih _ hrest ?_ q hq
          intro q2 hq2
          simp only [List.mem_append] at hq2
          rcases hq2 with hq2 | hq2
          · exact hst q2 hq2
          · exact le_trans (hrec _ _ q2 hq2) (by omega)
        · -- ftype = some "file"
          refine ih _ hrest ?_ q hq
          intro q2 hq2
          exact hst q2 hq2
        · -- other: probe
          rcases hrd : env.readdir
              (if basePath ≠ "" then basePath ++ "/" ++ f.name else f.name)
            with _ | sub
          · rw [hrd] at hq
            refine ih _ hrest ?_ q hq
            intro q2 hq2
            simp only [List.mem_append, List.mem_singleton] at hq2
            rcases hq2 with hq2 | hq2
            · exact hst q2 hq2
            · rw [hq2]; exact le_trans hfull (by omega)
          · rw [hrd] at hq
            refine ih _ hrest ?_ q hq
            intro q2 hq2
            simp only [List.mem_append, List.mem_singleton] at hq2
            rcases hq2 with (hq2 | hq2) | hq2
            · exact hst q2 hq2
            · rw [hq2]; exact le_trans hfull (by omega)
            · exact le_trans (hrec _ _ q2 hq2) (by omega)

theorem scanAux_trace_bound (env : ScanEnv) (hn : namesSlashFree env) :
    ∀ (fuel : Nat) (basePath : String) (budget : Nat),
      ∀ q ∈ (scanAux env fuel basePath budget).trace,
        slashes (reqPath q) ≤ slashes basePath + fuel := by
  intro fuel
  induction fuel with
  | zero =>
    intro basePath budget q hq
    simp [scanAux] at hq
  | succ fuel' ih =>
    intro basePath budget q hq
    simp only [scanAux] at hq
    rcases hrd : env.readdir basePath with _ | files
    · rw [hrd] at hq
      simp only [List.mem_singleton] at hq
      rw [hq]
      show slashes basePath ≤ _
      omega
    · rw [hrd] at hq
      have hb := scanLoop_trace_bound env basePath fuel'
        (fun p b => scanAux env fuel' p b)
        (fun p b q2 hq2 => ih p b q2 hq2)
        files ⟨[], budget, [.readdir basePath]⟩
        (hn basePath files hrd)
        (by
          intro q2 hq2
          simp only [List.mem_singleton] at hq2
          rw [hq2]
          show slashes basePath ≤ _
          omega)
        q hq
      omega

/-- C8: the depth limit of the recursive walk.  First conjunct: a call at or
beyond the depth limit returns an empty photo list with no I/O and no error
(the function returns normally).  Second conjunct: for every filesystem
whose entry names contain no path separator, a walk started at a source root
with the limit 3 never touches (lists or stats) a path more than 3 levels
below the root — in particular a directory nested 4 levels below the root is
never listed or visited. -/
theorem scan_depthLimit :
    (∀ (env : ScanEnv) (base : String) (maxD curD budget : Nat),
        maxD ≤ curD →
        scanDirectoryRecursively env base maxD curD budget
          = ⟨[], budget, []⟩)
    ∧ (∀ env : ScanEnv, namesSlashFree env → ∀ (base : String) (budget : Nat),
        ((scanDirectoryRecursively env base 3 0 budget).trace.filter
          (fun q => decide (slashes base + 3 < slashes (reqPath q)))) = []) := by
  constructor
  · intro env base maxD curD budget h
    rw [scanDirectoryRecursively, if_pos h]
  · intro env hn base budget
    rw [scanDirectoryRecursively, if_neg (by omega)]
    rw [List.filter_eq_nil_iff]
    intro q hq
    have := scanAux_trace_bound env hn (3 - 0) base budget q hq
    simp only [decide_eq_true_eq]
    omega

/-- C8 witness: `scan_depthLimit` instantiated on the uniform infinite
filesystem `fsEnvU` (every directory contains a subdirectory `d` and a photo
`p.jpg`): a call at depth 5 with limit 3 returns empty, and the walk from
root `r` never touches a path more than 3 levels deep. -/
theorem scan_depthLimit_witness :
    scanDirectoryRecursively fsEnvU "r" 3 5 7 = ⟨[], 7, []⟩
    ∧ ((scanDirectoryRecursively fsEnvU "r" 3 0 999).trace.filter
        (fun q => decide (slashes "r" + 3 < slashes (reqPath q)))) = [] := by
  have hn : namesSlashFree fsEnvU := by
    intro p l hl f hf
    have he : [(⟨"d", none⟩ : FileInfo), ⟨"p.jpg", none⟩] = l := by
      injection hl
    rw [← he] at hf
    fin_cases hf <;> decide
  exact ⟨scan_depthLimit.1 fsEnvU "r" 3 5 7 (by omega),
    scan_depthLimit.2 fsEnvU hn "r" 999⟩

/-- C9 witness: target `/Photos/Backup` with remote raw names `["b.jpg"]`;
the segment `Backup` is not in the inventory and the local file
`/x/Backup` (base name `Backup`) is `PUT` again. -/
theorem selfEntry_raw_exclusion_witness :
    jsSplitPop '/' "/Photos/Backup"
        ∉ getNextcloudFiles (some credsA) "/Photos/Backup" (some ["b.jpg"])
    ∧ HttpReq.put (putUrl credsA (normalizedTargetDir "/Photos/Backup")
          (fileNameOf "/x/Backup"))
        ∈ (performBackup envAllOk (some credsA) "/Photos/Backup"
            ["/x/Backup"] true [] "t").requests :=
  selfEntry_raw_exclusion envAllOk credsA "/Photos/Backup" ["b.jpg"]
    ["/x/Backup"] [] "t" "/x/Backup" (by decide) rfl rfl (by decide)
    (by decide) (by decide)

end PhotoBackup
